import Mathlib

set_option maxHeartbeats 1000000

/- Shallow embedding of src/libgitg/gitg-runner.c.

   The line segmenter (find_newline, parse_lines, emit_rest) works over
   decoded text, modelled here as List Char.  The runner state machine
   (run_sync, gitg_runner_cancel, gitg_runner_run_streams,
   gitg_runner_run_with_arguments) is modelled as explicit state passing
   over a RunnerState record, with the emitted GObject signals
   (begin-loading, update, end-loading) collected into an event trace and
   the external world (spawn outcome, stream read/write outcomes, child
   exit code) supplied as an oracle argument. -/

/- ---------------------------------------------------------------------
   Line segmenter
   --------------------------------------------------------------------- -/

/-- Embedding of find_newline (gitg-runner.c:360).  Scans the buffer left to
right for a line boundary.  On success it returns the content before the
boundary, the terminator characters consumed, and the text after the
terminator; the C function returns the boundary pointer (start of the
terminator) and writes the position after the terminator to line_end.
A carriage return that is the last available character is not a boundary
(the C code breaks out of the loop: the newline might still come), so the
function returns none in that case, exactly as when no boundary exists. -/
def find_newline : List Char → Option (List Char × List Char × List Char)
  | [] => none
  | c :: cs =>
    if c = '\n' then some ([], ['\n'], cs)
    else if c = '\r' then
      match cs with
      | [] => none
      | n :: ns =>
        if n = '\n' then some ([], ['\r', '\n'], ns)
        else some ([], ['\r'], n :: ns)
    else
      match find_newline cs with
      | none => none
      | some x => some (c :: x.1, x.2)

/-- The while loop of parse_lines (gitg-runner.c:451): repeatedly call
find_newline, collecting one line per boundary (with the terminator when
preserve_line_endings is set, without it otherwise) until no boundary is
found; what is left is the new remainder.  Fuel bounds the recursion; each
successful find_newline consumes at least the terminator, so a fuel of the
buffer length is always sufficient (parse_lines_core_fuel below). -/
def parse_lines_core (pres : Bool) : Nat → List Char → List (List Char) × List Char
  | 0, buf => ([], buf)
  | fuel + 1, buf =>
    match find_newline buf with
    | none => ([], buf)
    | some x =>
      let r := parse_lines_core pres fuel x.2.2
      ((if pres then x.1 ++ x.2.1 else x.1) :: r.1, r.2)

/-- Embedding of parse_lines (gitg-runner.c:414): prepend the retained
remainder to the new chunk, split off all complete lines, and keep the
unterminated tail as the new remainder.  Returns (batch, new remainder). -/
def parse_lines (pres : Bool) (rest chunk : List Char) : List (List Char) × List Char :=
  parse_lines_core pres (rest ++ chunk).length (rest ++ chunk)

/-- The line emitted for the final remainder by emit_rest (gitg-runner.c:503):
when not preserving line endings and the last character of the remainder is a
carriage return, that character is overwritten with a terminating NUL, i.e.
dropped; otherwise the remainder is emitted unchanged. -/
def emit_rest_line (pres : Bool) (rest : List Char) : List Char :=
  if !pres && (rest.getLast? == some '\r') then rest.dropLast else rest

/-- Embedding of emit_rest (gitg-runner.c:503) at the level of lines: a
non-empty remainder yields exactly one final line, an empty remainder
yields nothing. -/
def emit_rest_lines (pres : Bool) (rest : List Char) : List (List Char) :=
  if 0 < rest.length then [emit_rest_line pres rest] else []

/-- Folding parse_lines over a sequence of chunks, threading the remainder,
as the read loop of run_sync (gitg-runner.c:546) does: returns the list of
batches (one per chunk, in order) and the final remainder. -/
def segment_chunks (pres : Bool) : List Char → List (List Char) → List (List (List Char)) × List Char
  | rest, [] => ([], rest)
  | rest, chunk :: more =>
    let p := parse_lines pres rest chunk
    let q := segment_chunks pres p.2 more
    (p.1 :: q.1, q.2)

/-- All lines a chunk-split of a text produces: feed the chunks through
parse_lines in order starting from an empty remainder, then flush the final
remainder with emit_rest. -/
def run_segmenter (pres : Bool) (chunks : List (List Char)) : List (List Char) :=
  let p := segment_chunks pres [] chunks
  p.1.flatten ++ emit_rest_lines pres p.2

/- ---------------------------------------------------------------------
   Segmenter lemmas
   --------------------------------------------------------------------- -/

/-- find_newline decomposes its input: content, then terminator, then the
rest, with a non-empty terminator. -/
theorem find_newline_spec (buf : List Char) :
    ∀ x, find_newline buf = some x → buf = x.1 ++ x.2.1 ++ x.2.2 ∧ 0 < x.2.1.length := by
  induction buf with
  | nil => intro x h; simp [find_newline] at h
  | cons c cs ih =>
    intro x h
    simp only [find_newline] at h
    by_cases h1 : c = '\n'
    · simp only [if_pos h1] at h
      cases h
      simp [h1]
    · simp only [if_neg h1] at h
      by_cases h2 : c = '\r'
      · simp only [if_pos h2] at h
        cases cs with
        | nil => simp at h
        | cons n ns =>
          by_cases h3 : n = '\n'
          · simp only [if_pos h3] at h
            cases h
            simp [h2, h3]
          · simp only [if_neg h3] at h
            cases h
            simp [h2]
      · simp only [if_neg h2] at h
        cases hcs : find_newline cs with
        | none => rw [hcs] at h; simp at h
        | some y =>
          rw [hcs] at h
          cases h
          have := ih y hcs
          simp only []
          constructor
          · simp [this.1]
          · exact this.2

/-- Under the preserve policy, the lines split off by the parse loop,
concatenated with the remainder, give back the scanned buffer exactly,
whatever the fuel (running out of fuel just leaves more in the remainder). -/
theorem parse_lines_core_preserve (fuel : Nat) : ∀ buf : List Char,
    ((parse_lines_core true fuel buf).1).flatten ++ (parse_lines_core true fuel buf).2 = buf := by
  induction fuel with
  | zero => intro buf; simp [parse_lines_core]
  | succ n ih =>
    intro buf
    simp only [parse_lines_core]
    cases h : find_newline buf with
    | none => simp
    | some x =>
      have hb := (find_newline_spec buf x h).1
      simp only [if_pos rfl, List.flatten_cons]
      rw [List.append_assoc, ih x.2.2]
      simp [hb.symm]

/-- A successful find_newline strictly shortens the buffer past the
terminator. -/
theorem find_newline_rest_lt (buf : List Char) (x : List Char × List Char × List Char)
    (h : find_newline buf = some x) : x.2.2.length < buf.length := by
  have hs := find_newline_spec buf x h
  rw [hs.1]
  simp only [List.length_append]
  omega

/-- With fuel at least the buffer length, the parse loop only stops because
find_newline finds no further boundary in the remainder. -/
theorem parse_lines_core_fuel (pres : Bool) (fuel : Nat) : ∀ buf : List Char,
    buf.length ≤ fuel → find_newline ((parse_lines_core pres fuel buf).2) = none := by
  induction fuel with
  | zero =>
    intro buf hle
    have : buf = [] := List.length_eq_zero.mp (Nat.le_zero.mp hle)
    subst this
    simp [parse_lines_core, find_newline]
  | succ n ih =>
    intro buf hle
    simp only [parse_lines_core]
    cases h : find_newline buf with
    | none => simpa using h
    | some x =>
      have hlt := find_newline_rest_lt buf x h
      exact ih x.2.2 (by omega)

/-- A buffer in which find_newline finds no boundary contains no newline at
all, and contains a carriage return at most as its final character. -/
theorem find_newline_none_shape (buf : List Char) (h : find_newline buf = none) :
    buf.all (fun c => c != '\n') = true ∧ buf.dropLast.all (fun c => c != '\r') = true := by
  induction buf with
  | nil => simp
  | cons c cs ih =>
    simp only [find_newline] at h
    by_cases h1 : c = '\n'
    · simp [if_pos h1] at h
    · simp only [if_neg h1] at h
      by_cases h2 : c = '\r'
      · simp only [if_pos h2] at h
        cases cs with
        | nil =>
          subst h2
          simp
        | cons n ns =>
          by_cases h3 : n = '\n'
          · simp [if_pos h3] at h
          · simp [if_neg h3] at h
      · simp only [if_neg h2] at h
        cases hcs : find_newline cs with
        | some y => rw [hcs] at h; simp at h
        | none =>
          have := ih hcs
          constructor
          · simp [h1, this.1]
          · cases cs with
            | nil => simp
            | cons d ds =>
              rw [List.dropLast_cons₂]
              simp only [List.all_cons, Bool.and_eq_true]
              exact ⟨by simp [h2], this.2⟩

/-- The batches of a chunk fold under preserve, all concatenated, followed by
the final remainder, reconstruct the starting remainder followed by all the
chunks. -/
theorem segment_chunks_preserve : ∀ (chunks : List (List Char)) (rest : List Char),
    ((segment_chunks true rest chunks).1.flatten).flatten ++ (segment_chunks true rest chunks).2
      = rest ++ chunks.flatten := by
  intro chunks
  induction chunks with
  | nil => intro rest; simp [segment_chunks]
  | cons c more ih =>
    intro rest
    simp only [segment_chunks, List.flatten_cons, List.flatten_append]
    rw [List.append_assoc, ih]
    have hp : ((parse_lines true rest c).1).flatten ++ (parse_lines true rest c).2 = rest ++ c :=
      parse_lines_core_preserve _ _
    rw [← List.append_assoc, hp]
    simp

/-- The flushed final remainder under preserve is exactly the remainder. -/
theorem emit_rest_lines_preserve (rest : List Char) :
    (emit_rest_lines true rest).flatten = rest := by
  cases rest with
  | nil => simp [emit_rest_lines]
  | cons c cs => simp [emit_rest_lines, emit_rest_line]

/-- C1: for every decoded text (given as the concatenation of an arbitrary
chunk split) fed chunk by chunk through parse_lines and flushed with
emit_rest at end of stream, under the preserve line-ending policy the
concatenation of all emitted lines in emission order equals the original
text exactly, however the split falls — including between the carriage
return and the newline of a CRLF pair. -/
theorem segmenter_preserve_reconstructs (chunks : List (List Char)) :
    (run_segmenter true chunks).flatten = chunks.flatten := by
  simp only [run_segmenter, List.flatten_append]
  rw [emit_rest_lines_preserve]
  simpa using segment_chunks_preserve chunks []

/-- C2: the input text a LF b CR LF c CR d, fed through the segmenter under
the strip policy, yields the complete lines a, b, c (each terminator ending
one line, excluded from the line), leaves the remainder d, and the
end-of-stream flush emits exactly the one final line d with no
terminator. -/
theorem segmenter_scenario_strip :
    parse_lines false [] ['a', '\n', 'b', '\r', '\n', 'c', '\r', 'd']
        = ([['a'], ['b'], ['c']], ['d']) ∧
    emit_rest_lines false ['d'] = [['d']] := by
  decide

/-- C3: at stream end every non-empty remainder is flushed as exactly one
final line with no terminator appended; under the strip policy the trailing
character is removed exactly when it is a carriage return, while under the
preserve policy the remainder is emitted unchanged, trailing carriage
return included. -/
theorem emit_rest_final_line_spec (rest : List Char) (h : rest ≠ []) :
    emit_rest_lines true rest = [rest] ∧
    (rest.getLast? = some '\r' → emit_rest_lines false rest = [rest.dropLast]) ∧
    (rest.getLast? ≠ some '\r' → emit_rest_lines false rest = [rest]) := by
  have hl : 0 < rest.length := List.length_pos.mpr h
  refine ⟨by simp [emit_rest_lines, emit_rest_line, hl], ?_, ?_⟩
  · intro hr
    simp [emit_rest_lines, emit_rest_line, hl, hr]
  · intro hr
    simp [emit_rest_lines, emit_rest_line, hl, hr]

/-- C3 witness: flushing the concrete remainder a CR keeps the carriage
return under preserve and drops it under strip. -/
theorem emit_rest_final_line_spec_witness :
    emit_rest_lines true ['a', '\r'] = [['a', '\r']] ∧
    emit_rest_lines false ['a', '\r'] = [['a']] :=
  ⟨(emit_rest_final_line_spec ['a', '\r'] (by decide)).1,
   by simpa using (emit_rest_final_line_spec ['a', '\r'] (by decide)).2.1 (by decide)⟩

/-- C10: after any segmentation pass over any prior remainder and any new
chunk, the resulting remainder contains no newline character at all, and
contains a carriage return at most as its final character — it never
contains a complete line terminator. -/
theorem parse_remainder_no_terminator (pres : Bool) (rest chunk : List Char) :
    ((parse_lines pres rest chunk).2.all (fun c => c != '\n') = true) ∧
    ((parse_lines pres rest chunk).2.dropLast.all (fun c => c != '\r') = true) :=
  find_newline_none_shape _
    (parse_lines_core_fuel pres (rest ++ chunk).length (rest ++ chunk) (Nat.le_refl _))

/- ---------------------------------------------------------------------
   Runner state machine
   --------------------------------------------------------------------- -/

/-- The GObject signals a run emits (gitg-runner.c:41): begin-loading,
update (carrying the batch of lines), end-loading (carrying the cancelled
flag). -/
inductive Event where
  | begin_loading : Event
  | update : List (List Char) → Event
  | end_loading : Bool → Event
deriving DecidableEq

/-- The fields of GitgRunnerPrivate (gitg-runner.c:61) that the claims are
about.  The two stream pointers are modelled as booleans recording whether
a handle is held; the cancellable is modelled by a generation counter that
is bumped each time the GCancellable is replaced. -/
structure RunnerState where
  pid : Nat
  input_stream : Bool
  output_stream : Bool
  cancellable : Nat
  buffer_size : Nat
  rest_buffer : List Char
  exit_status : Int
  environment : Option (List (List Char))
  synchronized : Bool
  preserve_line_endings : Bool
deriving DecidableEq

/-- Embedding of runner_io_exit (gitg-runner.c:121): when a pid is recorded
it is cleared and the exit status is stored; otherwise nothing changes. -/
def runner_io_exit (status : Int) (s : RunnerState) : RunnerState :=
  if s.pid ≠ 0 then { s with pid := 0, exit_status := status } else s

/-- Embedding of close_streams (gitg-runner.c:481): both stream handles are
released and the retained remainder is discarded. -/
def close_streams (s : RunnerState) : RunnerState :=
  { s with output_stream := false, input_stream := false, rest_buffer := [] }

/-- Embedding of gitg_runner_running (gitg-runner.c:892): a run is active
exactly while the input stream handle is held. -/
def gitg_runner_running (s : RunnerState) : Bool :=
  s.input_stream

/-- Embedding of gitg_runner_get_exit_status (gitg-runner.c:899). -/
def gitg_runner_get_exit_status (s : RunnerState) : Int :=
  s.exit_status

/-- Embedding of gitg_runner_cancel (gitg-runner.c:867): only when the input
stream handle is held does anything happen — the cancellable is replaced by
a fresh one, a still-running child is killed and its exit status forced to
EXIT_FAILURE, the streams are closed and one end-loading(true) signal is
emitted.  Otherwise the state is untouched and nothing is emitted. -/
def gitg_runner_cancel (s : RunnerState) : RunnerState × List Event :=
  if s.input_stream then
    let s1 := { s with cancellable := s.cancellable + 1 }
    let s2 := if s1.pid ≠ 0 then runner_io_exit 1 s1 else s1
    (close_streams s2, [Event.end_loading true])
  else
    (s, [])

/-- The UPDATE signal emitted by emit_rest (gitg-runner.c:516): one update
carrying the single flushed line when the remainder is non-empty, nothing
otherwise. -/
def emit_rest_ev (pres : Bool) (rest : List Char) : List Event :=
  match emit_rest_lines pres rest with
  | [] => []
  | ls => [Event.update ls]

/-- The outcomes the outside world hands a synchronous run: whether writing
the supplied input to the child succeeds, the successive results of the
reads from the child's decoded output (none is a read error, some chunk is
a successful read of that chunk), and the child's exit code collected by
waitpid. -/
structure RunOracle where
  write_ok : Bool
  reads : List (Option (List Char))
  exit_code : Int
deriving DecidableEq

/-- The read loop of run_sync (gitg-runner.c:546): read up to buffer_size
bytes, hand them to parse_lines — which emits one UPDATE signal per pass,
empty batch or not (gitg-runner.c:473) — and continue while the read filled
the whole buffer.  A failed read stops the loop with the error flag and no
UPDATE for that pass.  When the supplied reads run out the stream is at end:
the next read returns zero bytes, which still goes through parse_lines
before the loop exits.  Returns (events, final remainder, no-error flag). -/
def run_sync_loop (pres : Bool) (bufsz : Nat) :
    List Char → List (Option (List Char)) → List Event × List Char × Bool
  | rest, [] =>
    let p := parse_lines pres rest []
    ([Event.update p.1], p.2, true)
  | rest, none :: _ => ([], rest, false)
  | rest, some chunk :: more =>
    let p := parse_lines pres rest chunk
    if chunk.length = bufsz then
      let r := run_sync_loop pres bufsz p.2 more
      (Event.update p.1 :: r.1, r.2.1, r.2.2)
    else
      ([Event.update p.1], p.2, true)

/-- The part of run_sync after the optional input write (gitg-runner.c:544):
run the read loop; on a read error force the exit status to 1, close the
streams and emit end-loading(true); otherwise flush the remainder, collect
the child's exit code, close the streams, emit end-loading(false), and
report success exactly when the exit code is zero. -/
def run_sync_body (s : RunnerState) (o : RunOracle) : RunnerState × List Event × Bool :=
  let r := run_sync_loop s.preserve_line_endings s.buffer_size s.rest_buffer o.reads
  if r.2.2 then
    let evr := emit_rest_ev s.preserve_line_endings r.2.1
    let s1 := close_streams (runner_io_exit o.exit_code { s with rest_buffer := r.2.1 })
    (s1, r.1 ++ evr ++ [Event.end_loading false], o.exit_code == 0)
  else
    let s1 := close_streams (runner_io_exit 1 { s with rest_buffer := r.2.1 })
    (s1, r.1 ++ [Event.end_loading true], false)

/-- Embedding of run_sync (gitg-runner.c:520).  With input supplied, a
failed write_all forces the exit status to 1, closes the streams, emits
end-loading(false) and returns failure; a successful write (the output
stream is then closed to signal end of input) or no input at all proceeds
to the read loop. -/
def run_sync (s : RunnerState) (input : Option (List Char)) (o : RunOracle) :
    RunnerState × List Event × Bool :=
  match input with
  | some _ =>
    if o.write_ok then
      run_sync_body s o
    else
      (close_streams (runner_io_exit 1 s), [Event.end_loading false], false)
  | none => run_sync_body s o

/-- Embedding of async_failed (gitg-runner.c:587), the shared handler for a
failed asynchronous write (write_input_ready) and a failed asynchronous
read (read_output_ready): exit status forced to 1, streams closed, one
end-loading(true) emitted. -/
def async_failed (s : RunnerState) : RunnerState × List Event :=
  (close_streams (runner_io_exit 1 s), [Event.end_loading true])

/-- Embedding of gitg_runner_run_streams (gitg-runner.c:711): cancel any
active run, install the supplied stream handles (the output stream only
when given, the input stream wrapped through the charset converter), emit
begin-loading, then either run synchronously to completion or, in
asynchronous mode, return true at once after issuing the first write/read
(whose completions are delivered later and are not part of this call's
trace). -/
def gitg_runner_run_streams (s : RunnerState) (has_in has_out : Bool)
    (input : Option (List Char)) (o : RunOracle) : RunnerState × List Event × Bool :=
  let p := gitg_runner_cancel s
  let s1 := { p.1 with
              output_stream := has_out || p.1.output_stream,
              input_stream := has_in || p.1.input_stream }
  if s1.synchronized then
    let r := run_sync s1 input o
    (r.1, p.2 ++ [Event.begin_loading] ++ r.2.1, r.2.2)
  else
    (s1, p.2 ++ [Event.begin_loading], true)

/-- Embedding of gitg_runner_run_with_arguments (gitg-runner.c:767): cancel
any active run, then spawn the child; spawn_pid is the outcome of
g_spawn_async_with_pipes (none when the executable cannot be spawned).  On
spawn failure the stored pid is reset to zero and the call returns false
with no further signals.  On success the pid is recorded, the child's
output pipe always becomes the input stream, an output stream is made only
when input text is supplied, and the run proceeds through
gitg_runner_run_streams. -/
def gitg_runner_run_with_arguments (s : RunnerState) (spawn_pid : Option Nat)
    (input : Option (List Char)) (o : RunOracle) : RunnerState × List Event × Bool :=
  let p := gitg_runner_cancel s
  match spawn_pid with
  | none => ({ p.1 with pid := 0 }, p.2, false)
  | some pid =>
    let s1 := { p.1 with pid := pid }
    let r := gitg_runner_run_streams s1 true input.isSome input o
    (r.1, p.2 ++ r.2.1, r.2.2)

/- ---------------------------------------------------------------------
   Runner lemmas and claims
   --------------------------------------------------------------------- -/

/-- When every read succeeds, the read loop finishes without the error
flag. -/
theorem run_sync_loop_ok (pres : Bool) (bufsz : Nat) :
    ∀ (reads : List (Option (List Char))) (rest : List Char),
      (∀ r ∈ reads, r ≠ none) →
      (run_sync_loop pres bufsz rest reads).2.2 = true := by
  intro reads
  induction reads with
  | nil => intro rest h; simp [run_sync_loop]
  | cons r more ih =>
    intro rest h
    cases r with
    | none => exact absurd rfl (h none (List.mem_cons_self _ _))
    | some chunk =>
      by_cases hc : chunk.length = bufsz
      · simp only [run_sync_loop, if_pos hc]
        exact ih _ (fun x hx => h x (List.mem_cons_of_mem _ hx))
      · simp [run_sync_loop, hc]

/-- A concrete runner: synchronized mode, strip policy, buffer size 3, a
live child with pid 3. -/
def sampleState : RunnerState :=
  { pid := 3, input_stream := true, output_stream := false, cancellable := 0,
    buffer_size := 3, rest_buffer := [], exit_status := 0, environment := none,
    synchronized := true, preserve_line_endings := false }

/-- A concrete runner with no active run: no stream handles held. -/
def idleState : RunnerState :=
  { pid := 0, input_stream := false, output_stream := false, cancellable := 0,
    buffer_size := 4, rest_buffer := [], exit_status := 0, environment := none,
    synchronized := true, preserve_line_endings := false }

/-- C4 counterexample: a synchronous run whose first chunk abc contains no
terminator delivers an update notification carrying the empty list of
lines — parse_lines emits the UPDATE signal unconditionally, so a
segmentation pass that yields no complete line still notifies the
subscriber, refuting the claim that every update carries a non-empty list
and that such a pass never causes an update. -/
theorem update_empty_batch_emitted :
    Event.update [] ∈
      (run_sync sampleState none
        { write_ok := true, reads := [some ['a', 'b', 'c']], exit_code := 0 }).2.1 := by
  decide

/-- C4 amended: every segmentation pass emits exactly one update
notification, carrying that pass's possibly empty batch — the first event
the read loop emits on a successful read is the update for that pass's
batch, complete lines or not — while the end-of-stream flush emits an
update only when the remainder is non-empty. -/
theorem update_per_pass (pres : Bool) (bufsz : Nat) (rest chunk : List Char)
    (more : List (Option (List Char))) :
    (run_sync_loop pres bufsz rest (some chunk :: more)).1.head? =
      some (Event.update (parse_lines pres rest chunk).1) ∧
    (emit_rest_ev pres rest).isEmpty = rest.isEmpty := by
  constructor
  · by_cases hc : chunk.length = bufsz <;> simp [run_sync_loop, hc]
  · cases rest <;> simp [emit_rest_ev, emit_rest_lines]

/-- C5: when the executable cannot be spawned and no run was active, run
returns failure, emits none of begin-loading, update or end-loading, and
resets the stored pid to zero, leaving the rest of the state as it was. -/
theorem run_spawn_failure_no_signals (s : RunnerState) (input : Option (List Char))
    (o : RunOracle) (h : s.input_stream = false) :
    gitg_runner_run_with_arguments s none input o = ({ s with pid := 0 }, [], false) := by
  simp [gitg_runner_run_with_arguments, gitg_runner_cancel, h]

/-- C5 witness: spawn failure on the concrete idle runner. -/
theorem run_spawn_failure_no_signals_witness :
    gitg_runner_run_with_arguments idleState none none
        { write_ok := true, reads := [], exit_code := 0 }
      = ({ idleState with pid := 0 }, [], false) :=
  run_spawn_failure_no_signals idleState none _ rfl

/-- C6 counterexample: in synchronous mode a child that runs to completion
(end-loading(false) is the final signal) with exit code 1 makes run_sync
return false — the non-zero exit IS reported as a run failure, refuting the
claim that the run's result does not report it; the code is retrievable
through gitg_runner_get_exit_status. -/
theorem nonzero_exit_sync_reported_as_failure :
    (run_sync sampleState none
        { write_ok := true, reads := [some []], exit_code := 1 }).2.2 = false ∧
    (run_sync sampleState none
        { write_ok := true, reads := [some []], exit_code := 1 }).2.1.getLast?
      = some (Event.end_loading false) ∧
    gitg_runner_get_exit_status
        (run_sync sampleState none
          { write_ok := true, reads := [some []], exit_code := 1 }).1 = 1 := by
  decide

/-- C6 amended: when the child runs to completion (no read error) with a
non-zero exit code, the synchronous run result additionally reports
failure (run_sync returns false, with a GITG_RUNNER_ERROR_EXIT error set),
while the code itself is reported through the exitStatus query after the
end-loading(false) notification that closes the run. -/
theorem nonzero_exit_reported (s : RunnerState) (o : RunOracle)
    (h1 : s.pid ≠ 0) (h2 : o.exit_code ≠ 0) (h3 : ∀ r ∈ o.reads, r ≠ none) :
    (run_sync s none o).2.2 = false ∧
    gitg_runner_get_exit_status (run_sync s none o).1 = o.exit_code ∧
    (run_sync s none o).2.1.getLast? = some (Event.end_loading false) := by
  have hok := run_sync_loop_ok s.preserve_line_endings s.buffer_size o.reads s.rest_buffer h3
  refine ⟨?_, ?_, ?_⟩
  · simp [run_sync, run_sync_body, hok, h2]
  · simp [run_sync, run_sync_body, hok, gitg_runner_get_exit_status, close_streams,
          runner_io_exit, h1]
  · simp only [run_sync, run_sync_body, hok, if_true]
    exact List.getLast?_concat _

/-- C6 amended witness: the concrete synchronous run with exit code 2. -/
theorem nonzero_exit_reported_witness :
    (run_sync sampleState none
        { write_ok := true, reads := [some []], exit_code := 2 }).2.2 = false ∧
    gitg_runner_get_exit_status
        (run_sync sampleState none
          { write_ok := true, reads := [some []], exit_code := 2 }).1 = 2 ∧
    (run_sync sampleState none
        { write_ok := true, reads := [some []], exit_code := 2 }).2.1.getLast?
      = some (Event.end_loading false) :=
  nonzero_exit_reported sampleState _ (by decide) (by decide) (by decide)

/-- C7 counterexample: with all else equal, a synchronous write failure
emits end-loading(false) while a synchronous read failure emits
end-loading(true) — the wasCancelled flag values differ, refuting the claim
that read and write failures emit an end notification with the same
flag. -/
theorem read_write_failure_flags_differ :
    (run_sync sampleState (some ['x'])
        { write_ok := false, reads := [], exit_code := 0 }).2.1
      = [Event.end_loading false] ∧
    (run_sync sampleState none
        { write_ok := true, reads := [none], exit_code := 0 }).2.1
      = [Event.end_loading true] := by
  decide

/-- C7 amended: read and write failures alike force the exit status to the
failure sentinel 1, close both streams, and emit exactly one end
notification; in asynchronous mode both emit end-loading(true), and a
synchronous read failure also emits end-loading(true), but a synchronous
write failure emits end-loading(false). -/
theorem io_failure_handling (s : RunnerState) (inp : List Char)
    (rs : List (Option (List Char))) (c : Int) (h : s.pid ≠ 0) :
    ((run_sync s (some inp) { write_ok := false, reads := rs, exit_code := c }).1.exit_status = 1 ∧
     (run_sync s (some inp) { write_ok := false, reads := rs, exit_code := c }).1.input_stream = false ∧
     (run_sync s (some inp) { write_ok := false, reads := rs, exit_code := c }).1.output_stream = false ∧
     (run_sync s (some inp) { write_ok := false, reads := rs, exit_code := c }).2.1
       = [Event.end_loading false]) ∧
    ((run_sync s none { write_ok := true, reads := none :: rs, exit_code := c }).1.exit_status = 1 ∧
     (run_sync s none { write_ok := true, reads := none :: rs, exit_code := c }).1.input_stream = false ∧
     (run_sync s none { write_ok := true, reads := none :: rs, exit_code := c }).1.output_stream = false ∧
     (run_sync s none { write_ok := true, reads := none :: rs, exit_code := c }).2.1
       = [Event.end_loading true]) ∧
    ((async_failed s).1.exit_status = 1 ∧
     (async_failed s).1.input_stream = false ∧
     (async_failed s).1.output_stream = false ∧
     (async_failed s).2 = [Event.end_loading true]) := by
  refine ⟨?_, ?_, ?_⟩ <;>
    simp [run_sync, run_sync_body, run_sync_loop, async_failed, close_streams,
          runner_io_exit, h]

/-- C7 amended witness: the three failure paths on the concrete running
state. -/
theorem io_failure_handling_witness :
    (run_sync sampleState (some ['x'])
        { write_ok := false, reads := [], exit_code := 0 }).1.exit_status = 1 ∧
    (run_sync sampleState none
        { write_ok := true, reads := [none], exit_code := 0 }).1.exit_status = 1 ∧
    (async_failed sampleState).2 = [Event.end_loading true] :=
  ⟨(io_failure_handling sampleState ['x'] [] 0 (by decide)).1.1,
   (io_failure_handling sampleState ['x'] [] 0 (by decide)).2.1.1,
   (io_failure_handling sampleState ['x'] [] 0 (by decide)).2.2.2.2.2⟩

/-- C8: starting a second run on a Runner whose first run is still active
(the input stream handle is held) first emits the cancelled first run's
end-loading(true) and only then the second run's begin-loading: the first
two events of the new invocation's trace are exactly end-loading(true)
followed by begin-loading. -/
theorem second_run_cancels_first (s : RunnerState) (pid : Nat)
    (input : Option (List Char)) (o : RunOracle) (h : s.input_stream = true) :
    ((gitg_runner_run_with_arguments s (some pid) input o).2.1).take 2
      = [Event.end_loading true, Event.begin_loading] := by
  by_cases hp : s.pid = 0 <;> by_cases hs : s.synchronized <;>
    simp [gitg_runner_run_with_arguments, gitg_runner_run_streams, gitg_runner_cancel,
          close_streams, runner_io_exit, hp, hs, h]

/-- C8 witness: a second run on the concrete running state. -/
theorem second_run_cancels_first_witness :
    ((gitg_runner_run_with_arguments sampleState (some 9) none
        { write_ok := true, reads := [some []], exit_code := 0 }).2.1).take 2
      = [Event.end_loading true, Event.begin_loading] :=
  second_run_cancels_first sampleState 9 none _ rfl

/-- C9: cancelling a Runner with no active run (the input stream handle is
absent) leaves the whole state untouched — pid, exit status, remainder,
environment and configuration included — and emits no notification; and
after any cancel the runner is no longer running, so a second cancel in a
row emits nothing: the end notification fires at most once. -/
theorem cancel_idle_frame (s : RunnerState) (h : s.input_stream = false) :
    gitg_runner_cancel s = (s, []) ∧
    ∀ t : RunnerState, (gitg_runner_cancel (gitg_runner_cancel t).1).2 = [] := by
  constructor
  · simp [gitg_runner_cancel, h]
  · intro t
    by_cases ht : t.input_stream
    · simp [gitg_runner_cancel, close_streams, ht]
    · simp [gitg_runner_cancel, ht]

/-- C9 witness: cancel on the concrete idle runner changes nothing and a
second cancel after a cancel of the running sample state emits nothing. -/
theorem cancel_idle_frame_witness :
    gitg_runner_cancel idleState = (idleState, []) ∧
    (gitg_runner_cancel (gitg_runner_cancel sampleState).1).2 = [] :=
  ⟨(cancel_idle_frame idleState rfl).1,
   (cancel_idle_frame idleState rfl).2 sampleState⟩
